import Mathlib

/-!
Verification of the gotext Locale/Domain registry (DeineAgenturUG/gotext).

This file gives a shallow embedding of the registry code of the repository:
the Locale structure with its domain map and lookup methods, the
file-resolution logic of findExt/AddDomain (both the current goto-based
variant and the historical guarded variant that is also part of the source
pack), the package-level config facade with its loadStorage reload logic,
and the binary snapshot serialization.

Modelling conventions, used uniformly below:
* Go maps and sync.Map instances are modelled as association lists over
  String keys (lookupStr / storeAssoc); Store replaces an existing key.
* The filesystem is an explicit list of the paths of the existing files;
  os.Stat succeeds exactly on membership.  path.Join is modelled as
  joining the non-empty components with a slash (path cleaning is elided,
  which is exact for the slash-free components the code joins).
* Go byte-level string length and slicing (len(lang), lang[:2]) are
  modelled at character granularity (String.length / String.take), which
  coincides with Go on ASCII language tags.  A Go slice panic is modelled
  by returning none from the function that would panic.
* File I/O and locking are recorded in an explicit event trace (Ev):
  functions that would perform them return their result together with the
  list of events, in program order; a none result means a Go panic.
* The Po/Mo parsers and the Translator entry-lookup behaviour live in
  files outside the source pack; they enter as explicit function
  parameters (parsePo, parseMo, getN, getNC, sprintf), so every theorem
  holds for all implementations of the missing parts.
-/

namespace Gotext

/-- Association-list lookup over String keys; models reading a Go map or
sync.Map.Load (a nil map behaves like the empty list). -/
def lookupStr {β : Type} : List (String × β) → String → Option β
  | [], _ => none
  | kv :: rest, k => if kv.1 = k then some kv.2 else lookupStr rest k

/-- Association-list insert-or-replace; models a Go map assignment or
sync.Map.Store. -/
def storeAssoc {β : Type} : List (String × β) → String → β → List (String × β)
  | [], k, v => [(k, v)]
  | kv :: rest, k, v => if kv.1 = k then (k, v) :: rest else kv :: storeAssoc rest k v

/-- The in-memory content carried by a parsed Po/Mo object: the catalog
entries keyed by (context, msgid) with their plural-form lists, and the
original Plural-Forms header text.  The parsers and lookup methods that
populate and read this content are outside the source pack; lookups are
dispatched through explicit function parameters. -/
structure Translator where
  entries : List ((String × String) × List String)
  pluralHeader : String
deriving DecidableEq, Repr

/-- The printf helper of the facade: applies text formatting only when
variadic arguments were actually passed (fmt.Sprintf enters as the
abstract parameter sprintf). -/
def printf (sprintf : String → List String → String) (str : String) (vars : List String) : String :=
  if vars.length > 0 then sprintf str vars else str

/-- Modelled from the spec: the package-level Printf helper used by the
Locale lookup fallbacks lives in a helper file outside the source pack;
per the spec the interpolation wrapper applies printf-style formatting to
the resolved template, and it has the same body as the facade printf
helper that is in the source pack. -/
def Printf (sprintf : String → List String → String) (str : String) (vars : List String) : String :=
  printf sprintf str vars

/-- The Locale of the current code: path, language, the domain map
(a sync.Map from domain name to Translator) and the default domain. -/
structure Locale where
  path : String
  lang : String
  domains : List (String × Translator)
  defaultDomain : String
deriving DecidableEq, Repr

/-- GetDomain returns the default domain (the RLock around the read is
elided in this sequential model). -/
def Locale.GetDomain (l : Locale) : String :=
  l.defaultDomain

/-- SetDomain overwrites the default domain. -/
def Locale.SetDomain (l : Locale) (dom : String) : Locale :=
  { l with defaultDomain := dom }

/-- Locale.GetND: load the domain from the map and dispatch to the
Translator's GetN; a missing domain falls back to Printf(plural, vars). -/
def Locale.GetND (sprintf : String → List String → String)
    (getN : Translator → String → String → Int → List String → String)
    (l : Locale) (dom str plural : String) (n : Int) (vars : List String) : String :=
  match lookupStr l.domains dom with
  | some tr => getN tr str plural n vars
  | none => Printf sprintf plural vars

/-- Locale.GetNDC: context-scoped lookup; a missing domain falls back to
Printf(plural, vars). -/
def Locale.GetNDC (sprintf : String → List String → String)
    (getNC : Translator → String → String → Int → String → List String → String)
    (l : Locale) (dom str plural : String) (n : Int) (ctx : String)
    (vars : List String) : String :=
  match lookupStr l.domains dom with
  | some tr => getNC tr str plural n ctx vars
  | none => Printf sprintf plural vars

/-- Locale.GetD delegates to GetND with (str, str, 1). -/
def Locale.GetD (sprintf : String → List String → String)
    (getN : Translator → String → String → Int → List String → String)
    (l : Locale) (dom str : String) (vars : List String) : String :=
  l.GetND sprintf getN dom str str 1 vars

/-- Locale.GetDC delegates to GetNDC with (str, str, 1). -/
def Locale.GetDC (sprintf : String → List String → String)
    (getNC : Translator → String → String → Int → String → List String → String)
    (l : Locale) (dom str ctx : String) (vars : List String) : String :=
  l.GetNDC sprintf getNC dom str str 1 ctx vars

/-- Locale.Get uses the default domain. -/
def Locale.Get (sprintf : String → List String → String)
    (getN : Translator → String → String → Int → List String → String)
    (l : Locale) (str : String) (vars : List String) : String :=
  l.GetD sprintf getN l.GetDomain str vars

/-- Locale.GetN uses the default domain. -/
def Locale.GetN (sprintf : String → List String → String)
    (getN : Translator → String → String → Int → List String → String)
    (l : Locale) (str plural : String) (n : Int) (vars : List String) : String :=
  l.GetND sprintf getN l.GetDomain str plural n vars

/-- Locale.GetC uses the default domain. -/
def Locale.GetC (sprintf : String → List String → String)
    (getNC : Translator → String → String → Int → String → List String → String)
    (l : Locale) (str ctx : String) (vars : List String) : String :=
  l.GetDC sprintf getNC l.GetDomain str ctx vars

/-- Locale.GetNC uses the default domain. -/
def Locale.GetNC (sprintf : String → List String → String)
    (getNC : Translator → String → String → Int → String → List String → String)
    (l : Locale) (str plural : String) (n : Int) (ctx : String)
    (vars : List String) : String :=
  l.GetNDC sprintf getNC l.GetDomain str plural n ctx vars

/-- path.Join modelled as slash-joining the non-empty components. -/
def joinPath (cs : List String) : String :=
  String.intercalate "/" (cs.filter (fun c => c ≠ ""))

/-- The LC_MESSAGES candidate path probed by findExt:
path.Join(p, lang, "LC_MESSAGES", dom+"."+ext). -/
def fullCand (p lang dom ext : String) : String :=
  joinPath [p, lang, "LC_MESSAGES", dom ++ "." ++ ext]

/-- The bare candidate path probed by findExt:
path.Join(p, lang, dom+"."+ext). -/
def dirCand (p lang dom ext : String) : String :=
  joinPath [p, lang, dom ++ "." ++ ext]

/-- findExt of the current Locale: probe p/lang/LC_MESSAGES/dom.ext, then
p/l.lang/dom.ext.  Note that the second probe uses the receiver's full
language tag l.lang, not the lang argument. -/
def Locale.findExt (fs : List String) (l : Locale) (dom ext lang : String) : Option String :=
  if fs.contains (fullCand l.path lang dom ext) then some (fullCand l.path lang dom ext)
  else if fs.contains (dirCand l.path l.lang dom ext) then some (dirCand l.path l.lang dom ext)
  else none

/-- Which parser AddDomain instantiates for a found file. -/
inductive FileKind where
  | po : FileKind
  | mo : FileKind
deriving DecidableEq, Repr

/-- The file-selection logic of the current AddDomain: findExt with "po"
and the full tag, then "mo" with the full tag, then "po" and "mo" with
the two-character slice of the tag.  The slice l.lang[:2] is unguarded in
the code; when the tag is shorter than two characters Go panics, which is
modelled by the outer none.  some none means no candidate file exists. -/
def Locale.addDomainFind (fs : List String) (l : Locale) (dom : String) :
    Option (Option (String × FileKind)) :=
  match l.findExt fs dom "po" l.lang with
  | some f => some (some (f, FileKind.po))
  | none =>
    match l.findExt fs dom "mo" l.lang with
    | some f => some (some (f, FileKind.mo))
    | none =>
      if l.lang.length < 2 then none
      else
        match l.findExt fs dom "po" (l.lang.take 2) with
        | some f => some (some (f, FileKind.po))
        | none =>
          match l.findExt fs dom "mo" (l.lang.take 2) with
          | some f => some (some (f, FileKind.mo))
          | none => some none

/-- The save step of AddDomain/AddTranslator: set the default domain if it
is still empty, and store the translator under dom. -/
def Locale.saveDomain (l : Locale) (dom : String) (tr : Translator) : Locale :=
  { l with
    defaultDomain := if l.defaultDomain = "" then dom else l.defaultDomain,
    domains := storeAssoc l.domains dom tr }

/-- Dispatch to the Po or Mo parser (both outside the source pack, passed
as parameters). -/
def parseOf (parsePo parseMo : String → Translator) : FileKind → String → Translator
  | FileKind.po, f => parsePo f
  | FileKind.mo, f => parseMo f

/-- The observable side effects of the registry code: file parsing,
taking and releasing the Locale's exclusive lock, and the sync.Map store
of a domain. -/
inductive Ev where
  | parse : String → Ev
  | lock : Ev
  | unlock : Ev
  | store : String → Ev
deriving DecidableEq, Repr

/-- AddDomain of the current Locale, with its event trace.  The code
parses the found file first, then takes the exclusive lock only around
the default-domain update, unlocks, and finally stores the parsed object
into the sync.Map.  A none result models the Go panic of the unguarded
l.lang[:2] slice. -/
def Locale.addDomainTr (parsePo parseMo : String → Translator) (fs : List String)
    (l : Locale) (dom : String) : Option Locale × List Ev :=
  match l.addDomainFind fs dom with
  | none => (none, [])
  | some none => (some l, [])
  | some (some (f, k)) =>
      (some (l.saveDomain dom (parseOf parsePo parseMo k f)),
       [Ev.parse f, Ev.lock, Ev.unlock, Ev.store dom])

/-- AddDomain, state part only. -/
def Locale.AddDomain (parsePo parseMo : String → Translator) (fs : List String)
    (l : Locale) (dom : String) : Option Locale :=
  (l.addDomainTr parsePo parseMo fs dom).1

/-- AddTranslator: default-domain update under the lock, then store. -/
def Locale.AddTranslator (l : Locale) (dom : String) (tr : Translator) : Locale :=
  l.saveDomain dom tr

/-- The Locale of the historical variant in the source pack: the domain
map is a plain Go map guarded by the RWMutex, and a stored interface
value may be nil (hence Option Translator). -/
structure HLocale where
  path : String
  lang : String
  domains : List (String × Option Translator)
  defaultDomain : String
deriving DecidableEq, Repr

/-- findExt of the historical Locale: LC_MESSAGES with the full tag, then
LC_MESSAGES with the two-letter prefix (only when the tag is longer than
two characters), then the bare directory with the full tag, then the bare
directory with the prefix (again only when the tag is longer than two
characters). -/
def HLocale.findExt (fs : List String) (l : HLocale) (dom ext : String) : Option String :=
  if fs.contains (fullCand l.path l.lang dom ext) then
    some (fullCand l.path l.lang dom ext)
  else if 2 < l.lang.length ∧ fs.contains (fullCand l.path (l.lang.take 2) dom ext) = true then
    some (fullCand l.path (l.lang.take 2) dom ext)
  else if fs.contains (dirCand l.path l.lang dom ext) then
    some (dirCand l.path l.lang dom ext)
  else if 2 < l.lang.length ∧ fs.contains (dirCand l.path (l.lang.take 2) dom ext) = true then
    some (dirCand l.path (l.lang.take 2) dom ext)
  else none

/-- DNGettext of the historical Locale: a missing domain map, a missing
key or a nil stored interface all fall back to returning plural; the
historical Translator interface takes no variadic arguments. -/
def HLocale.DNGettext (getN : Translator → String → String → Int → String)
    (l : HLocale) (dom str plural : String) (n : Int) : String :=
  match lookupStr l.domains dom with
  | some (some tr) => getN tr str plural n
  | some none => plural
  | none => plural

/-- DNPGettext of the historical Locale: the context-scoped analogue of
DNGettext, with the same fallback to plural. -/
def HLocale.DNPGettext (getNC : Translator → String → String → Int → String → String)
    (l : HLocale) (dom ctx str plural : String) (n : Int) : String :=
  match lookupStr l.domains dom with
  | some (some tr) => getNC tr str plural n ctx
  | some none => plural
  | none => plural

/-- First candidate of a (path, parser) list that exists on the
filesystem. -/
def firstHit (fs : List String) : List (String × FileKind) → Option (String × FileKind)
  | [] => none
  | c :: rest => if fs.contains c.1 then some c else firstHit fs rest

/-- First candidate path of a plain list that exists on the filesystem. -/
def firstExisting (fs : List String) : List String → Option String
  | [] => none
  | c :: rest => if fs.contains c then some c else firstExisting fs rest

/-- The candidate files the current AddDomain actually probes, in probe
order, paired with the parser each would get.  The second candidate of
each findExt call uses the receiver's full tag, so the bare-directory
probes of the prefixed calls repeat the full-tag paths. -/
def currentCandidates (l : Locale) (dom : String) : List (String × FileKind) :=
  [ (fullCand l.path l.lang dom "po", FileKind.po),
    (dirCand l.path l.lang dom "po", FileKind.po),
    (fullCand l.path l.lang dom "mo", FileKind.mo),
    (dirCand l.path l.lang dom "mo", FileKind.mo),
    (fullCand l.path (l.lang.take 2) dom "po", FileKind.po),
    (dirCand l.path l.lang dom "po", FileKind.po),
    (fullCand l.path (l.lang.take 2) dom "mo", FileKind.mo),
    (dirCand l.path l.lang dom "mo", FileKind.mo) ]

/-- The resolution order stated by the claim, written from the claim's
words for comparison with the code: P/lang/LC_MESSAGES/dom.mo,
P/lang[:2]/LC_MESSAGES/dom.mo, P/lang/dom.mo, P/lang[:2]/dom.mo, then the
same four candidates with the .po extension (MO before PO). -/
def specCandidatesC3 (p lang dom : String) : List String :=
  [ fullCand p lang dom "mo",
    fullCand p (lang.take 2) dom "mo",
    dirCand p lang dom "mo",
    dirCand p (lang.take 2) dom "mo",
    fullCand p lang dom "po",
    fullCand p (lang.take 2) dom "po",
    dirCand p lang dom "po",
    dirCand p (lang.take 2) dom "po" ]

/-- Recognize a parse event. -/
def isParseEv : Ev → Bool
  | Ev.parse _ => true
  | _ => false

/-- Formalisation of the claim that file parsing is performed while the
exclusive lock is held: every parse event of the trace lies strictly
between a lock event and an unlock event. -/
def parseHeldUnderLock (tr : List Ev) : Prop :=
  ∀ i : Fin tr.length, isParseEv (tr.get i) = true →
    ∃ j : Fin tr.length, ∃ k : Fin tr.length,
      j.val < i.val ∧ i.val < k.val ∧ tr.get j = Ev.lock ∧ tr.get k = Ev.unlock

instance (tr : List Ev) : Decidable (parseHeldUnderLock tr) := by
  unfold parseHeldUnderLock
  infer_instance

/-- The operations of a Locale's lifecycle that touch the default domain
or the domain map. -/
inductive LOp where
  | addDom : String → LOp
  | addTr : String → Translator → LOp
  | setDom : String → LOp
deriving DecidableEq, Repr

/-- Apply one lifecycle operation (none models the AddDomain panic). -/
def applyOp (parsePo parseMo : String → Translator) (fs : List String)
    (l : Locale) : LOp → Option Locale
  | LOp.addDom d => l.AddDomain parsePo parseMo fs d
  | LOp.addTr d t => some (l.AddTranslator d t)
  | LOp.setDom d => some (l.SetDomain d)

/-- Run a sequence of lifecycle operations. -/
def runOps (parsePo parseMo : String → Translator) (fs : List String)
    (l : Locale) : List LOp → Option Locale
  | [] => some l
  | op :: rest =>
    match applyOp parsePo parseMo fs l op with
    | none => none
    | some l1 => runOps parsePo parseMo fs l1 rest

/-- A sequence without SetDomain calls. -/
def noSetDom : List LOp → Bool
  | [] => true
  | LOp.setDom _ :: _ => false
  | _ :: rest => noSetDom rest

/-- A sequence whose added domains all have non-empty names (the empty
string is the code's sentinel for an unset default domain). -/
def goodNames : List LOp → Bool
  | [] => true
  | LOp.addDom d :: rest => if d = "" then false else goodNames rest
  | LOp.addTr d _ :: rest => if d = "" then false else goodNames rest
  | LOp.setDom _ :: rest => goodNames rest

/-- A throwaway Locale with the given path and language, used to evaluate
the file probes (which depend only on path and language). -/
def probeLocale (p lang : String) : Locale :=
  { path := p, lang := lang, domains := [], defaultDomain := "" }

/-- The domain a lifecycle operation effectively adds: an AddTranslator
always adds its domain; an AddDomain adds its domain exactly when a
candidate file exists (a failed AddDomain stores nothing and leaves the
default domain alone). -/
def effAdd (fs : List String) (p lang : String) : LOp → Option String
  | LOp.addDom d =>
    match (probeLocale p lang).addDomainFind fs d with
    | some (some _) => some d
    | _ => none
  | LOp.addTr d _ => some d
  | LOp.setDom _ => none

/-- The first domain a sequence of operations effectively adds. -/
def firstAdded (fs : List String) (p lang : String) : List LOp → Option String
  | [] => none
  | op :: rest =>
    match effAdd fs p lang op with
    | some d => some d
    | none => firstAdded fs p lang rest

/-- Modelled from the spec: the gob intermediary TranslatorEncoding and
the Translator's MarshalBinary/GetTranslator methods live outside the
source pack; per the spec, serialization round-trips every entry and the
plural rule's original header text, so the encoding carries exactly the
Translator content and the gob blob is modelled by the encoded value
itself. -/
structure TranslatorEncoding where
  content : Translator
deriving DecidableEq, Repr

/-- Modelled from the spec: Translator.MarshalBinary captures the full
catalog content and the plural header text. -/
def Translator.MarshalBinary (t : Translator) : TranslatorEncoding :=
  { content := t }

/-- Modelled from the spec: TranslatorEncoding.GetTranslator rebuilds a
Translator with the encoded entries and header. -/
def TranslatorEncoding.GetTranslator (e : TranslatorEncoding) : Translator :=
  e.content

/-- The LocaleEncoding intermediary of the source: path, language, the
per-domain encoded blobs, and the default domain.  The gob byte encoding
of this structure is modelled by the structure itself. -/
structure LocaleEncoding where
  Path : String
  Lang : String
  Domains : List (String × TranslatorEncoding)
  DefaultDomain : String
deriving DecidableEq, Repr

/-- Locale.MarshalBinary: copy the default domain, marshal every stored
domain (the sync.Map Range order is the list order here; the conclusion
below is stated per key, so it does not depend on it), then record the
language and path. -/
def Locale.MarshalBinary (l : Locale) : LocaleEncoding :=
  { Path := l.path,
    Lang := l.lang,
    Domains := l.domains.map (fun kv => (kv.1, kv.2.MarshalBinary)),
    DefaultDomain := l.defaultDomain }

/-- Store every decoded domain in turn, as the decode loop of
UnmarshalBinary does. -/
def storeFoldEnc (init : List (String × Translator)) :
    List (String × TranslatorEncoding) → List (String × Translator)
  | [] => init
  | kv :: rest => storeFoldEnc (storeAssoc init kv.1 kv.2.GetTranslator) rest

/-- Locale.UnmarshalBinary: decode the blob, overwrite the default
domain, language and path, and store each decoded domain into the
receiver's (possibly non-empty) domain map.  No filesystem or parser
parameter appears: reconstruction never re-reads or re-parses catalog
files. -/
def Locale.UnmarshalBinary (l : Locale) (data : LocaleEncoding) : Locale :=
  { path := data.Path,
    lang := data.Lang,
    defaultDomain := data.DefaultDomain,
    domains := storeFoldEnc l.domains data.Domains }

/-- A freshly allocated Locale (the zero value a caller unmarshals into). -/
def emptyLocale : Locale :=
  { path := "", lang := "", domains := [], defaultDomain := "" }

/-- NewLocale: record the path and the language.  The SimplifiedLocale
normalization applied to the tag lives outside the source pack and is
elided (exact for tags without spaces or punctuation). -/
def NewLocale (p lang : String) : Locale :=
  { path := p, lang := lang, domains := [], defaultDomain := "" }

/-- The package-level configuration of the current facade: default
domain, the lists of domains and languages to (re)load, the library path
and the language-to-Locale storage (a sync.Map). -/
structure Config where
  loadDomains : List String
  domain : String
  loadLanguages : List String
  language : String
  library : String
  storage : List (String × Locale)
deriving DecidableEq, Repr

/-- The loadStorage inner loop over loadDomains: AddDomain each domain
that is missing, or every domain when force is set. -/
def addDomainsIf (parsePo parseMo : String → Translator) (fs : List String)
    (force : Bool) : List String → Locale → Option Locale × List Ev
  | [], l => (some l, [])
  | d :: rest, l =>
    if (lookupStr l.domains d).isNone || force then
      match l.addDomainTr parsePo parseMo fs d with
      | (none, ev) => (none, ev)
      | (some l1, ev) =>
        match addDomainsIf parsePo parseMo fs force rest l1 with
        | (r, ev2) => (r, ev ++ ev2)
    else addDomainsIf parsePo parseMo fs force rest l

/-- What loadStorage does to one Locale: AddDomain the config's default
domain unconditionally, then run the loadDomains loop. -/
def localeAddAll (parsePo parseMo : String → Translator) (fs : List String)
    (force : Bool) (cdom : String) (doms : List String)
    (l : Locale) : Option Locale × List Ev :=
  match l.addDomainTr parsePo parseMo fs cdom with
  | (none, ev) => (none, ev)
  | (some l1, ev) =>
    match addDomainsIf parsePo parseMo fs force doms l1 with
    | (r, ev2) => (r, ev ++ ev2)

/-- The loadStorage loop over loadLanguages: LoadOrStore a Locale for
each language and refresh its domains. -/
def loadLangsTr (parsePo parseMo : String → Translator) (fs : List String)
    (force : Bool) (cdom : String) (doms : List String) (lib : String) :
    List String → List (String × Locale) → Option (List (String × Locale)) × List Ev
  | [], st => (some st, [])
  | lang :: rest, st =>
    match localeAddAll parsePo parseMo fs force cdom doms
        ((lookupStr st lang).getD (NewLocale lib lang)) with
    | (none, ev) => (none, ev)
    | (some loc1, ev) =>
      match loadLangsTr parsePo parseMo fs force cdom doms lib rest
          (storeAssoc st lang loc1) with
      | (r, ev2) => (r, ev ++ ev2)

/-- config.loadStorage of the current facade: LoadOrStore the Locale of
the configured language and refresh it, then do the same for every
language of loadLanguages. -/
def Config.loadStorageTr (parsePo parseMo : String → Translator) (fs : List String)
    (force : Bool) (c : Config) : Option Config × List Ev :=
  match localeAddAll parsePo parseMo fs force c.domain c.loadDomains
      ((lookupStr c.storage c.language).getD (NewLocale c.library c.language)) with
  | (none, ev) => (none, ev)
  | (some loc1, ev) =>
    match loadLangsTr parsePo parseMo fs force c.domain c.loadDomains c.library
        c.loadLanguages (storeAssoc c.storage c.language loc1) with
    | (none, ev2) => (none, ev ++ ev2)
    | (some st2, ev2) => (some { c with storage := st2 }, ev ++ ev2)

/-- config.GetND of the current facade, with its event trace: read the
Locale of the configured language (returning the empty string when there
is none), AddDomain the requested domain if it is not yet in the Locale's
map, then call loadStorage(true) unconditionally, and finally look the
translation up in the (pointer-shared, hence freshly reloaded) Locale. -/
def Config.GetNDTr (sprintf : String → List String → String)
    (getN : Translator → String → String → Int → List String → String)
    (parsePo parseMo : String → Translator) (fs : List String) (c : Config)
    (dom str plural : String) (n : Int) (vars : List String) :
    Option String × List Ev :=
  match lookupStr c.storage c.language with
  | none => (some "", [])
  | some v2 =>
    if (lookupStr v2.domains dom).isNone then
      match v2.addDomainTr parsePo parseMo fs dom with
      | (none, ev) => (none, ev)
      | (some v3, ev) =>
        match Config.loadStorageTr parsePo parseMo fs true
            { c with storage := storeAssoc c.storage c.language v3 } with
        | (none, ev2) => (none, ev ++ ev2)
        | (some c2, ev2) =>
          (some (((lookupStr c2.storage c.language).getD v3).GetND
            sprintf getN dom str plural n vars), ev ++ ev2)
    else
      match Config.loadStorageTr parsePo parseMo fs true c with
      | (none, ev2) => (none, ev2)
      | (some c2, ev2) =>
        (some (((lookupStr c2.storage c.language).getD v2).GetND
          sprintf getN dom str plural n vars), ev2)

/-- A concrete translator content for evaluating the embedding. -/
def trivialTranslator : Translator :=
  { entries := [], pluralHeader := "" }

/-- A concrete stand-in for the Po/Mo file parsers. -/
def parseStub : String → Translator :=
  fun _ => trivialTranslator

/-- A concrete stand-in for fmt.Sprintf. -/
def sprintf0 : String → List String → String :=
  fun s _ => s

/-- A concrete stand-in for the Translator's GetN method. -/
def getN0 : Translator → String → String → Int → List String → String :=
  fun _ s _ _ _ => s

/-- A concrete stand-in for the Translator's GetNC method. -/
def getNC0 : Translator → String → String → Int → String → List String → String :=
  fun _ s _ _ _ _ => s

/-- A concrete stand-in for the historical Translator's GetN method. -/
def getNHist0 : Translator → String → String → Int → String :=
  fun _ s _ _ => s

/-- A concrete stand-in for the historical Translator's GetNC method. -/
def getNCHist0 : Translator → String → String → Int → String → String :=
  fun _ s _ _ _ => s

/-- A config whose language Locale already has the default domain loaded,
used to evaluate the facade lookup path. -/
def loadedConfig : Config :=
  { loadDomains := ["default"],
    domain := "default",
    loadLanguages := [],
    language := "en_US",
    library := "b",
    storage := [("en_US",
      { path := "b", lang := "en_US",
        domains := [("default", trivialTranslator)],
        defaultDomain := "default" })] }

/-- A concrete Locale with two loaded domains, used to evaluate the
serialization round trip. -/
def sampleLocale : Locale :=
  { path := "p", lang := "de_DE",
    domains := [("alpha", trivialTranslator), ("beta", trivialTranslator)],
    defaultDomain := "alpha" }

/-
Helper lemmas, shared by the claim theorems below.
-/

theorem lookupStr_storeAssoc_self {β : Type} (xs : List (String × β)) (k : String) (v : β) :
    lookupStr (storeAssoc xs k v) k = some v := by
  induction xs with
  | nil => simp [storeAssoc, lookupStr]
  | cons kv rest ih =>
    by_cases hk : kv.1 = k
    · simp [storeAssoc, hk, lookupStr]
    · simp [storeAssoc, hk, lookupStr, ih]

theorem lookupStr_storeAssoc_ne {β : Type} (xs : List (String × β)) (k d : String) (v : β)
    (h : d ≠ k) : lookupStr (storeAssoc xs k v) d = lookupStr xs d := by
  induction xs with
  | nil => simp [storeAssoc, lookupStr, Ne.symm h]
  | cons kv rest ih =>
    by_cases hk : kv.1 = k
    · simp [storeAssoc, hk, lookupStr, Ne.symm h]
    · simp [storeAssoc, hk, lookupStr, ih]

theorem lookupStr_eq_none_of_not_mem {β : Type} (xs : List (String × β)) (k : String)
    (h : k ∉ xs.map Prod.fst) : lookupStr xs k = none := by
  induction xs with
  | nil => rfl
  | cons kv rest ih =>
    simp only [List.map_cons, List.mem_cons] at h
    push_neg at h
    simp [lookupStr, Ne.symm h.1, ih h.2]

theorem lookupStr_map_enc (xs : List (String × Translator)) (d : String) :
    lookupStr (xs.map fun kv => (kv.1, kv.2.MarshalBinary)) d =
      (lookupStr xs d).map Translator.MarshalBinary := by
  induction xs with
  | nil => rfl
  | cons kv rest ih =>
    by_cases hd : kv.1 = d <;> simp [lookupStr, hd, ih]

theorem keys_map_enc (xs : List (String × Translator)) :
    (xs.map fun kv => (kv.1, kv.2.MarshalBinary)).map Prod.fst = xs.map Prod.fst := by
  induction xs with
  | nil => rfl
  | cons kv rest ih => simp [ih]

theorem storeFoldEnc_lookup (d : String) :
    ∀ (xs : List (String × TranslatorEncoding)) (init : List (String × Translator)),
      (xs.map Prod.fst).Nodup →
      lookupStr (storeFoldEnc init xs) d =
        (match lookupStr xs d with
          | some e => some e.GetTranslator
          | none => lookupStr init d) := by
  intro xs
  induction xs with
  | nil => intro init _; rfl
  | cons kv rest ih =>
    intro init hnd
    simp only [List.map_cons, List.nodup_cons] at hnd
    have hstep := ih (storeAssoc init kv.1 kv.2.GetTranslator) hnd.2
    by_cases hd : kv.1 = d
    · subst hd
      have hrest : lookupStr rest kv.1 = none :=
        lookupStr_eq_none_of_not_mem rest kv.1 hnd.1
      simp [storeFoldEnc, hstep, hrest, lookupStr, lookupStr_storeAssoc_self]
    · simp only [storeFoldEnc, hstep, lookupStr, hd, if_false]
      cases hr : lookupStr rest d with
      | some e => simp
      | none => simp [lookupStr_storeAssoc_ne init kv.1 d _ (fun hdk => hd hdk.symm)]

theorem firstHit_none (fs : List String) :
    ∀ cs : List (String × FileKind), (∀ c ∈ cs, fs.contains c.1 = false) →
      firstHit fs cs = none := by
  intro cs
  induction cs with
  | nil => intro _; rfl
  | cons c rest ih =>
    intro hall
    have hc : c.1 ∉ fs := by simpa using hall c (List.mem_cons_self c rest)
    have hrest := ih fun x hx => hall x (List.mem_cons_of_mem c hx)
    simp [firstHit, hc, hrest]

theorem addDomainFind_as_firstHit (fs : List String) (l : Locale) (dom : String)
    (h : 2 ≤ l.lang.length) :
    l.addDomainFind fs dom = some (firstHit fs (currentCandidates l dom)) := by
  have hlt : ¬ l.lang.length < 2 := Nat.not_lt.mpr h
  by_cases c1 : fullCand l.path l.lang dom "po" ∈ fs <;>
  by_cases c2 : dirCand l.path l.lang dom "po" ∈ fs <;>
  by_cases c3 : fullCand l.path l.lang dom "mo" ∈ fs <;>
  by_cases c4 : dirCand l.path l.lang dom "mo" ∈ fs <;>
  by_cases c5 : fullCand l.path (l.lang.take 2) dom "po" ∈ fs <;>
  by_cases c6 : fullCand l.path (l.lang.take 2) dom "mo" ∈ fs <;>
  simp [Locale.addDomainFind, Locale.findExt, currentCandidates, firstHit,
    c1, c2, c3, c4, c5, c6, hlt]

theorem addDomainFind_probe (fs : List String) (l : Locale) (dom : String) :
    l.addDomainFind fs dom = (probeLocale l.path l.lang).addDomainFind fs dom := by
  cases l
  rfl

theorem runOps_default_stable (parsePo parseMo : String → Translator) (fs : List String) :
    ∀ (ops : List LOp) (l l2 : Locale), noSetDom ops = true → l.defaultDomain ≠ "" →
      runOps parsePo parseMo fs l ops = some l2 →
      l2.defaultDomain = l.defaultDomain := by
  intro ops
  induction ops with
  | nil =>
    intro l l2 _ _ hrun
    simp only [runOps] at hrun
    cases hrun
    rfl
  | cons op rest ih =>
    intro l l2 hns hd hrun
    cases op with
    | addDom d =>
      simp only [runOps, applyOp, Locale.AddDomain, Locale.addDomainTr] at hrun
      cases hfind : l.addDomainFind fs d with
      | none => rw [hfind] at hrun; cases hrun
      | some r =>
        cases r with
        | none =>
          rw [hfind] at hrun
          exact ih l l2 hns hd hrun
        | some fk =>
          rw [hfind] at hrun
          have hsave : (l.saveDomain d (parseOf parsePo parseMo fk.2 fk.1)).defaultDomain
              = l.defaultDomain := by
            simp [Locale.saveDomain, hd]
          have := ih _ l2 hns (by rw [hsave]; exact hd) hrun
          rw [this, hsave]
    | addTr d t =>
      simp only [runOps, applyOp, Locale.AddTranslator] at hrun
      have hsave : (l.saveDomain d t).defaultDomain = l.defaultDomain := by
        simp [Locale.saveDomain, hd]
      have := ih _ l2 hns (by rw [hsave]; exact hd) hrun
      rw [this, hsave]
    | setDom d => simp [noSetDom] at hns

theorem saveDomain_path (l : Locale) (dom : String) (tr : Translator) :
    (l.saveDomain dom tr).path = l.path := rfl

theorem saveDomain_lang (l : Locale) (dom : String) (tr : Translator) :
    (l.saveDomain dom tr).lang = l.lang := rfl

/-- C1: for every Locale and every domain with no entry in the domain
map, each lookup (GetND, GetNDC, the singular GetD/GetDC derived from
them, and the historical DNGettext/DNPGettext) returns the caller's
input, printf-formatted via the abstract sprintf, and — being a total
function for every choice of the dispatched implementations — never
fails or panics. -/
theorem lookup_missing_domain_fail_open
    (sprintf : String → List String → String)
    (getN : Translator → String → String → Int → List String → String)
    (getNC : Translator → String → String → Int → String → List String → String)
    (getNHist : Translator → String → String → Int → String)
    (getNCHist : Translator → String → String → Int → String → String)
    (l : Locale) (hl : HLocale) (dom str plural ctx : String) (n : Int)
    (vars : List String)
    (h : lookupStr l.domains dom = none)
    (h2 : lookupStr hl.domains dom = none) :
    l.GetND sprintf getN dom str plural n vars = Printf sprintf plural vars
    ∧ l.GetNDC sprintf getNC dom str plural n ctx vars = Printf sprintf plural vars
    ∧ l.GetD sprintf getN dom str vars = Printf sprintf str vars
    ∧ l.GetDC sprintf getNC dom str ctx vars = Printf sprintf str vars
    ∧ hl.DNGettext getNHist dom str plural n = plural
    ∧ hl.DNPGettext getNCHist dom ctx str plural n = plural := by
  refine ⟨?_, ?_, ?_, ?_, ?_, ?_⟩ <;>
    simp [Locale.GetND, Locale.GetNDC, Locale.GetD, Locale.GetDC,
      HLocale.DNGettext, HLocale.DNPGettext, h, h2]

/-- Witness for C1 at a concrete empty Locale and domain. -/
theorem lookup_missing_domain_fail_open_witness :
    Locale.GetND sprintf0 getN0
        { path := "b", lang := "en_US", domains := [], defaultDomain := "" }
        "missing" "one" "many" 5 ["v"] = Printf sprintf0 "many" ["v"]
    ∧ Locale.GetNDC sprintf0 getNC0
        { path := "b", lang := "en_US", domains := [], defaultDomain := "" }
        "missing" "one" "many" 5 "ctx" ["v"] = Printf sprintf0 "many" ["v"]
    ∧ Locale.GetD sprintf0 getN0
        { path := "b", lang := "en_US", domains := [], defaultDomain := "" }
        "missing" "one" ["v"] = Printf sprintf0 "one" ["v"]
    ∧ Locale.GetDC sprintf0 getNC0
        { path := "b", lang := "en_US", domains := [], defaultDomain := "" }
        "missing" "one" "ctx" ["v"] = Printf sprintf0 "one" ["v"]
    ∧ HLocale.DNGettext getNHist0
        { path := "b", lang := "en_US", domains := [], defaultDomain := "" }
        "missing" "one" "many" 5 = "many"
    ∧ HLocale.DNPGettext getNCHist0
        { path := "b", lang := "en_US", domains := [], defaultDomain := "" }
        "missing" "ctx" "one" "many" 5 = "many" :=
  lookup_missing_domain_fail_open sprintf0 getN0 getNC0 getNHist0 getNCHist0
    { path := "b", lang := "en_US", domains := [], defaultDomain := "" }
    { path := "b", lang := "en_US", domains := [], defaultDomain := "" }
    "missing" "one" "many" "ctx" 5 ["v"] (by decide) (by decide)

/-- C2 counterexample: with no catalog loaded, GetN with n = 1 returns
the plural argument, not the original msgid as the claim states. -/
theorem getn_missing_catalog_n1_counterexample :
    Locale.GetN sprintf0 getN0
        { path := "b", lang := "en_US", domains := [], defaultDomain := "" }
        "apple" "apples" 1 [] = "apples"
    ∧ ("apples" : String) ≠ "apple" := by
  exact ⟨rfl, by decide⟩

/-- C2 amended: with no catalog loaded for the requested domain, GetND
returns the plural argument (printf-formatted) for every count n,
including n = 1; the result does not depend on n. -/
theorem getn_missing_catalog_returns_plural
    (sprintf : String → List String → String)
    (getN : Translator → String → String → Int → List String → String)
    (l : Locale) (dom str plural : String) (n : Int) (vars : List String)
    (h : lookupStr l.domains dom = none) :
    l.GetND sprintf getN dom str plural 1 vars = Printf sprintf plural vars
    ∧ l.GetND sprintf getN dom str plural n vars
        = l.GetND sprintf getN dom str plural 1 vars := by
  constructor <;> simp [Locale.GetND, h]

/-- Witness for the amended C2 at a concrete empty Locale. -/
theorem getn_missing_catalog_returns_plural_witness :
    Locale.GetND sprintf0 getN0
        { path := "b", lang := "fr", domains := [], defaultDomain := "" }
        "default" "house" "houses" 1 [] = Printf sprintf0 "houses" []
    ∧ Locale.GetND sprintf0 getN0
        { path := "b", lang := "fr", domains := [], defaultDomain := "" }
        "default" "house" "houses" 7 []
      = Locale.GetND sprintf0 getN0
        { path := "b", lang := "fr", domains := [], defaultDomain := "" }
        "default" "house" "houses" 1 [] :=
  getn_missing_catalog_returns_plural sprintf0 getN0
    { path := "b", lang := "fr", domains := [], defaultDomain := "" }
    "default" "house" "houses" 7 [] (by decide)

/-- C3 counterexample: with both d.mo and d.po present under
P/lang/LC_MESSAGES, the code's AddDomain selects the .po file, while the
claim's MO-first resolution order selects the .mo file. -/
theorem addDomain_po_before_mo_counterexample :
    Locale.addDomainFind ["b/en/LC_MESSAGES/d.mo", "b/en/LC_MESSAGES/d.po"]
        { path := "b", lang := "en", domains := [], defaultDomain := "" } "d"
      = some (some ("b/en/LC_MESSAGES/d.po", FileKind.po))
    ∧ firstExisting ["b/en/LC_MESSAGES/d.mo", "b/en/LC_MESSAGES/d.po"]
        (specCandidatesC3 "b" "en" "d") = some "b/en/LC_MESSAGES/d.mo"
    ∧ ("b/en/LC_MESSAGES/d.po" : String) ≠ "b/en/LC_MESSAGES/d.mo" := by
  refine ⟨by decide, by decide, by decide⟩

/-- C3 amended: AddDomain probes PO before MO and the full tag before the
two-character prefix, loading the first existing candidate of
currentCandidates in order: P/lang/LC_MESSAGES/dom.po, P/lang/dom.po,
P/lang/LC_MESSAGES/dom.mo, P/lang/dom.mo, then (for tags of at least two
characters, the slice panicking otherwise) P/lang[:2]/LC_MESSAGES/dom.po,
P/lang/dom.po, P/lang[:2]/LC_MESSAGES/dom.mo, P/lang/dom.mo — the
bare-directory probe always re-uses the full tag. -/
theorem addDomain_probe_order (fs : List String) (l : Locale) (dom : String)
    (h : 2 ≤ l.lang.length) :
    l.addDomainFind fs dom = some (firstHit fs (currentCandidates l dom)) :=
  addDomainFind_as_firstHit fs l dom h

/-- Witness for the amended C3 at a concrete filesystem on which the
bare-directory MO candidate is the first hit. -/
theorem addDomain_probe_order_witness :
    Locale.addDomainFind ["b/de/d.mo"]
        { path := "b", lang := "de", domains := [], defaultDomain := "" } "d"
      = some (firstHit ["b/de/d.mo"]
          (currentCandidates
            { path := "b", lang := "de", domains := [], defaultDomain := "" } "d")) :=
  addDomain_probe_order ["b/de/d.mo"]
    { path := "b", lang := "de", domains := [], defaultDomain := "" } "d" (by decide)

/-- C4 counterexample: for the one-character tag "e" and an empty
filesystem AddDomain evaluates the unguarded slice lang[:2] and panics
(modelled by none), so the claim that AddDomain never panics on a short
tag fails on the current code. -/
theorem addDomain_short_tag_panic_counterexample :
    Locale.AddDomain parseStub parseStub []
        { path := "b", lang := "e", domains := [], defaultDomain := "" } "d" = none := by
  decide

/-- C4 amended: the current AddDomain evaluates the lang[:2] slice
unguarded whenever the two full-tag probes fail, panicking for tags
shorter than two characters; only the historical findExt guards the
two-letter-prefix probes with len(lang) > 2 and skips them for short
tags. -/
theorem short_tag_policy :
    (∀ (fs : List String) (l : Locale) (dom : String),
        l.lang.length < 2 →
        l.findExt fs dom "po" l.lang = none →
        l.findExt fs dom "mo" l.lang = none →
        l.addDomainFind fs dom = none)
    ∧ (∀ (fs : List String) (hl : HLocale) (dom ext : String),
        hl.lang.length ≤ 2 →
        hl.findExt fs dom ext =
          (if fs.contains (fullCand hl.path hl.lang dom ext) = true then
            some (fullCand hl.path hl.lang dom ext)
          else if fs.contains (dirCand hl.path hl.lang dom ext) = true then
            some (dirCand hl.path hl.lang dom ext)
          else none)) := by
  constructor
  · intro fs l dom hlen hpo hmo
    simp [Locale.addDomainFind, hpo, hmo, hlen]
  · intro fs hl dom ext hle
    have hgt : ¬ 2 < hl.lang.length := Nat.not_lt.mpr hle
    simp [HLocale.findExt, hgt]

/-- Witness for the amended C4: the short-tag panic of the current code
at tag "e", and the guarded historical findExt skipping the prefix probes
at the two-character tag "en". -/
theorem short_tag_policy_witness :
    Locale.addDomainFind []
        { path := "b", lang := "e", domains := [], defaultDomain := "" } "d" = none
    ∧ HLocale.findExt ["b/en/d.po"]
        { path := "b", lang := "en", domains := [], defaultDomain := "" } "d" "po"
      = some "b/en/d.po" := by
  constructor
  · exact (short_tag_policy).1 []
      { path := "b", lang := "e", domains := [], defaultDomain := "" } "d"
      (by decide) (by decide) (by decide)
  · have h := (short_tag_policy).2 ["b/en/d.po"]
      { path := "b", lang := "en", domains := [], defaultDomain := "" } "d" "po"
      (by decide)
    rw [h]
    decide

/-- C10: the facade printf helper applied with an empty variadic list
returns the template unchanged (no interpolation happens), and with a
non-empty list it returns exactly Sprintf(template, args). -/
theorem printf_formats_only_with_args
    (sprintf : String → List String → String) (s : String) (vars : List String) :
    printf sprintf s [] = s
    ∧ (vars ≠ [] → printf sprintf s vars = sprintf s vars) := by
  constructor
  · rfl
  · intro h
    have hpos : 0 < vars.length := List.length_pos.mpr h
    simp [printf, hpos]

/-- Witness for C10 at a concrete template and argument list. -/
theorem printf_formats_only_with_args_witness :
    printf sprintf0 "copy %s" [] = "copy %s"
    ∧ printf sprintf0 "copy %s" ["x"] = sprintf0 "copy %s" ["x"] :=
  ⟨(printf_formats_only_with_args sprintf0 "copy %s" (["x"] : List String)).1,
   (printf_formats_only_with_args sprintf0 "copy %s" (["x"] : List String)).2 (by decide)⟩

/-- C6 counterexample: on a concrete successful AddDomain the recorded
trace has its parse event before the lock event, so the claim that
parsing is performed while holding the Locale's exclusive lock is false
for the code. -/
theorem parse_outside_lock_counterexample :
    ¬ parseHeldUnderLock (Locale.addDomainTr parseStub parseStub
      ["b/en/LC_MESSAGES/w.po"]
      { path := "b", lang := "en", domains := [], defaultDomain := "" } "w").2 := by
  decide

/-- C6 amended: AddDomain parses the found file first, then takes the
exclusive lock only around the default-domain update, unlocks, and only
then stores the fully parsed translator atomically into the sync.Map —
so a concurrent lookup observes either no entry or the complete catalog,
but parsing is not performed under the lock and two threads may parse the
same domain concurrently. -/
theorem addDomain_trace_parse_before_lock
    (parsePo parseMo : String → Translator) (fs : List String) (l : Locale)
    (dom f : String) (k : FileKind)
    (h : l.addDomainFind fs dom = some (some (f, k))) :
    l.addDomainTr parsePo parseMo fs dom =
      (some (l.saveDomain dom (parseOf parsePo parseMo k f)),
        [Ev.parse f, Ev.lock, Ev.unlock, Ev.store dom])
    ∧ ¬ parseHeldUnderLock [Ev.parse f, Ev.lock, Ev.unlock, Ev.store dom] := by
  constructor
  · simp [Locale.addDomainTr, h]
  · intro hp
    obtain ⟨j, k2, hj, _, _, _⟩ := hp ⟨0, by simp⟩ rfl
    exact absurd hj (Nat.not_lt_zero _)

/-- Witness for the amended C6 at a concrete Locale and filesystem. -/
theorem addDomain_trace_parse_before_lock_witness :
    Locale.addDomainTr parseStub parseStub ["b/fr/LC_MESSAGES/app.po"]
        { path := "b", lang := "fr", domains := [], defaultDomain := "" } "app" =
      (some (Locale.saveDomain
          { path := "b", lang := "fr", domains := [], defaultDomain := "" }
          "app" (parseOf parseStub parseStub FileKind.po "b/fr/LC_MESSAGES/app.po")),
        [Ev.parse "b/fr/LC_MESSAGES/app.po", Ev.lock, Ev.unlock, Ev.store "app"])
    ∧ ¬ parseHeldUnderLock [Ev.parse "b/fr/LC_MESSAGES/app.po", Ev.lock, Ev.unlock,
        Ev.store "app"] :=
  addDomain_trace_parse_before_lock parseStub parseStub ["b/fr/LC_MESSAGES/app.po"]
    { path := "b", lang := "fr", domains := [], defaultDomain := "" }
    "app" "b/fr/LC_MESSAGES/app.po" FileKind.po (by decide)

/-- C7 counterexample: for the one-character tag "e" and an empty
filesystem none of the candidate files exists, yet AddDomain does not
return with the Locale unchanged — it panics at the unguarded lang[:2]
slice (modelled by none). -/
theorem addDomain_no_candidates_short_tag_counterexample :
    Locale.AddDomain parseStub parseStub []
        { path := "b", lang := "e", domains := [], defaultDomain := "" } "d"
      ≠ some { path := "b", lang := "e", domains := [], defaultDomain := "" } := by
  decide

/-- C7 amended: provided the language tag has at least two characters
(so the lang[:2] slice cannot panic), when none of the probed candidate
files exists AddDomain returns with the Locale state unchanged — no
domain entry is stored and the default domain is untouched — and a
lookup against the still-missing domain falls back to the
printf-formatted caller input. -/
theorem addDomain_no_candidates_unchanged
    (parsePo parseMo : String → Translator)
    (sprintf : String → List String → String)
    (getN : Translator → String → String → Int → List String → String)
    (fs : List String) (l : Locale) (dom str plural : String) (n : Int)
    (vars : List String)
    (hlen : 2 ≤ l.lang.length)
    (hnone : ∀ c ∈ currentCandidates l dom, fs.contains c.1 = false) :
    l.AddDomain parsePo parseMo fs dom = some l
    ∧ (lookupStr l.domains dom = none →
        l.GetND sprintf getN dom str plural n vars = Printf sprintf plural vars) := by
  have hfind := addDomainFind_as_firstHit fs l dom hlen
  rw [firstHit_none fs _ hnone] at hfind
  constructor
  · simp [Locale.AddDomain, Locale.addDomainTr, hfind]
  · intro hdom
    simp [Locale.GetND, hdom]

/-- Witness for the amended C7 at a concrete Locale whose candidates all
miss the filesystem. -/
theorem addDomain_no_candidates_unchanged_witness :
    Locale.AddDomain parseStub parseStub ["x/other.po"]
        { path := "b", lang := "en_US", domains := [], defaultDomain := "" } "d"
      = some { path := "b", lang := "en_US", domains := [], defaultDomain := "" }
    ∧ Locale.GetND sprintf0 getN0
        { path := "b", lang := "en_US", domains := [], defaultDomain := "" }
        "d" "s" "p" 2 [] = Printf sprintf0 "p" [] :=
  ⟨(addDomain_no_candidates_unchanged parseStub parseStub sprintf0 getN0
      ["x/other.po"]
      { path := "b", lang := "en_US", domains := [], defaultDomain := "" }
      "d" "s" "p" 2 [] (by decide) (by decide)).1,
   (addDomain_no_candidates_unchanged parseStub parseStub sprintf0 getN0
      ["x/other.po"]
      { path := "b", lang := "en_US", domains := [], defaultDomain := "" }
      "d" "s" "p" 2 [] (by decide) (by decide)).2 (by decide)⟩

/-- C5: evaluation of the facade lookup at its failing input.  The
config's language Locale already has the requested domain "default"
loaded, yet a single GetND call emits two parse events for the already
loaded catalog file, because config.GetND invokes loadStorage(true) —
a forced reload of every configured domain — on every lookup.  The claim
that a lookup against an already-loaded domain is a pure read (no file
I/O, parsing at most once per explicit AddDomain) is violated by the
code. -/
theorem facade_getnd_reparses_on_lookup :
    (Config.GetNDTr sprintf0 getN0 parseStub parseStub
        ["b/en_US/LC_MESSAGES/default.po"] loadedConfig "default" "x" "y" 1 []).2 =
      [Ev.parse "b/en_US/LC_MESSAGES/default.po", Ev.lock, Ev.unlock, Ev.store "default",
       Ev.parse "b/en_US/LC_MESSAGES/default.po", Ev.lock, Ev.unlock, Ev.store "default"]
    ∧ (Config.GetNDTr sprintf0 getN0 parseStub parseStub
        ["b/en_US/LC_MESSAGES/default.po"] loadedConfig "default" "x" "y" 1 []).1
      = some "x" := by
  refine ⟨by decide, by decide⟩

/-- C8: over any sequence of AddDomain/AddTranslator operations with
non-empty domain names and no SetDomain, the first domain effectively
added (an AddTranslator, or an AddDomain whose candidate file exists)
becomes the Locale's default domain and later additions never change it;
GetDomain returns the default domain; and SetDomain overrides it. -/
theorem first_added_domain_is_default
    (parsePo parseMo : String → Translator) (fs : List String) :
    (∀ (ops : List LOp) (l l2 : Locale),
        noSetDom ops = true → goodNames ops = true → l.defaultDomain = "" →
        runOps parsePo parseMo fs l ops = some l2 →
        l2.defaultDomain = (firstAdded fs l.path l.lang ops).getD ""
          ∧ l2.GetDomain = l2.defaultDomain)
    ∧ (∀ (ops : List LOp) (l l2 : Locale),
        noSetDom ops = true → l.defaultDomain ≠ "" →
        runOps parsePo parseMo fs l ops = some l2 →
        l2.defaultDomain = l.defaultDomain)
    ∧ (∀ (l : Locale) (d : String), (l.SetDomain d).defaultDomain = d) := by
  refine ⟨?_, runOps_default_stable parsePo parseMo fs, fun l d => rfl⟩
  intro ops
  induction ops with
  | nil =>
    intro l l2 _ _ hempty hrun
    simp only [runOps] at hrun
    cases hrun
    exact ⟨hempty, rfl⟩
  | cons op rest ih =>
    intro l l2 hns hgn hempty hrun
    cases op with
    | addDom d =>
      have hns2 : noSetDom rest = true := by simpa [noSetDom] using hns
      have hd2 : ¬ d = "" := by
        intro hde
        rw [goodNames, if_pos hde] at hgn
        exact Bool.false_ne_true hgn
      have hgn2 : goodNames rest = true := by
        rw [goodNames, if_neg hd2] at hgn
        exact hgn
      cases hfind : l.addDomainFind fs d with
      | none =>
        have happly : applyOp parsePo parseMo fs l (LOp.addDom d) = none := by
          simp [applyOp, Locale.AddDomain, Locale.addDomainTr, hfind]
        rw [runOps, happly] at hrun
        cases hrun
      | some r =>
        cases r with
        | none =>
          have happly : applyOp parsePo parseMo fs l (LOp.addDom d) = some l := by
            simp [applyOp, Locale.AddDomain, Locale.addDomainTr, hfind]
          rw [runOps, happly] at hrun
          have heff : effAdd fs l.path l.lang (LOp.addDom d) = none := by
            rw [effAdd, ← addDomainFind_probe, hfind]
          have hrec := ih l l2 hns2 hgn2 hempty hrun
          refine ⟨?_, rfl⟩
          rw [firstAdded, heff]
          exact hrec.1
        | some fk =>
          cases fk with
          | mk f k =>
            have happly : applyOp parsePo parseMo fs l (LOp.addDom d)
                = some (l.saveDomain d (parseOf parsePo parseMo k f)) := by
              simp [applyOp, Locale.AddDomain, Locale.addDomainTr, hfind]
            rw [runOps, happly] at hrun
            have heff : effAdd fs l.path l.lang (LOp.addDom d) = some d := by
              rw [effAdd, ← addDomainFind_probe, hfind]
            have hd1 : (l.saveDomain d (parseOf parsePo parseMo k f)).defaultDomain = d := by
              simp [Locale.saveDomain, hempty]
            have hstable := runOps_default_stable parsePo parseMo fs rest _ l2 hns2
              (by rw [hd1]; exact hd2) hrun
            refine ⟨?_, rfl⟩
            rw [hstable, hd1, firstAdded, heff]
            rfl
    | addTr d t =>
      have hns2 : noSetDom rest = true := by simpa [noSetDom] using hns
      have hd2 : ¬ d = "" := by
        intro hde
        rw [goodNames, if_pos hde] at hgn
        exact Bool.false_ne_true hgn
      have happly : applyOp parsePo parseMo fs l (LOp.addTr d t)
          = some (l.saveDomain d t) := rfl
      rw [runOps, happly] at hrun
      have hd1 : (l.saveDomain d t).defaultDomain = d := by
        simp [Locale.saveDomain, hempty]
      have hstable := runOps_default_stable parsePo parseMo fs rest _ l2 hns2
        (by rw [hd1]; exact hd2) hrun
      refine ⟨?_, rfl⟩
      rw [hstable, hd1, firstAdded]
      rfl
    | setDom d =>
      rw [noSetDom] at hns
      cases hns

/-- Witness for C8: a concrete operation sequence whose first effective
addition is the AddTranslator of "alpha" (the AddDomain of "beta" finds
no file on the empty filesystem and is a no-op). -/
theorem first_added_domain_is_default_witness :
    Locale.defaultDomain
        { path := "b", lang := "en",
          domains := [("alpha", trivialTranslator), ("gamma", trivialTranslator)],
          defaultDomain := "alpha" }
      = (firstAdded [] "b" "en"
          [LOp.addTr "alpha" trivialTranslator, LOp.addDom "beta",
           LOp.addTr "gamma" trivialTranslator]).getD ""
    ∧ Locale.GetDomain
        { path := "b", lang := "en",
          domains := [("alpha", trivialTranslator), ("gamma", trivialTranslator)],
          defaultDomain := "alpha" }
      = Locale.defaultDomain
        { path := "b", lang := "en",
          domains := [("alpha", trivialTranslator), ("gamma", trivialTranslator)],
          defaultDomain := "alpha" } :=
  (first_added_domain_is_default parseStub parseStub []).1
    [LOp.addTr "alpha" trivialTranslator, LOp.addDom "beta",
     LOp.addTr "gamma" trivialTranslator]
    { path := "b", lang := "en", domains := [], defaultDomain := "" }
    { path := "b", lang := "en",
      domains := [("alpha", trivialTranslator), ("gamma", trivialTranslator)],
      defaultDomain := "alpha" }
    (by decide) (by decide) (by decide) (by decide)

/-- C9: unmarshalling the blob produced by MarshalBinary into a fresh
Locale reconstructs the language, path, default domain, and — per domain
name — the same translation content, with no filesystem or parser
involved (UnmarshalBinary takes neither).  The per-key uniqueness
hypothesis is the sync.Map invariant of the domain map. -/
theorem locale_marshal_roundtrip (l : Locale)
    (h : (l.domains.map Prod.fst).Nodup) :
    (Locale.UnmarshalBinary emptyLocale (Locale.MarshalBinary l)).lang = l.lang
    ∧ (Locale.UnmarshalBinary emptyLocale (Locale.MarshalBinary l)).path = l.path
    ∧ (Locale.UnmarshalBinary emptyLocale (Locale.MarshalBinary l)).defaultDomain
        = l.defaultDomain
    ∧ ∀ d : String,
        lookupStr (Locale.UnmarshalBinary emptyLocale (Locale.MarshalBinary l)).domains d
          = lookupStr l.domains d := by
  refine ⟨rfl, rfl, rfl, ?_⟩
  intro d
  have hnd : ((l.domains.map fun kv => (kv.1, kv.2.MarshalBinary)).map Prod.fst).Nodup := by
    rw [keys_map_enc]
    exact h
  have hfold := storeFoldEnc_lookup d (l.domains.map fun kv => (kv.1, kv.2.MarshalBinary)) [] hnd
  show lookupStr (storeFoldEnc [] (l.domains.map fun kv => (kv.1, kv.2.MarshalBinary))) d
      = lookupStr l.domains d
  rw [hfold, lookupStr_map_enc]
  cases lookupStr l.domains d <;> rfl

/-- Witness for C9 at a concrete Locale with two loaded domains. -/
theorem locale_marshal_roundtrip_witness :
    (Locale.UnmarshalBinary emptyLocale (Locale.MarshalBinary sampleLocale)).lang
        = sampleLocale.lang
    ∧ (Locale.UnmarshalBinary emptyLocale (Locale.MarshalBinary sampleLocale)).path
        = sampleLocale.path
    ∧ (Locale.UnmarshalBinary emptyLocale (Locale.MarshalBinary sampleLocale)).defaultDomain
        = sampleLocale.defaultDomain
    ∧ lookupStr (Locale.UnmarshalBinary emptyLocale
        (Locale.MarshalBinary sampleLocale)).domains "alpha"
        = lookupStr sampleLocale.domains "alpha" :=
  ⟨(locale_marshal_roundtrip sampleLocale (by decide)).1,
   (locale_marshal_roundtrip sampleLocale (by decide)).2.1,
   (locale_marshal_roundtrip sampleLocale (by decide)).2.2.1,
   (locale_marshal_roundtrip sampleLocale (by decide)).2.2.2 "alpha"⟩

end Gotext
